import Mathlib

/-!
Shallow embedding of the two polylabel implementations of this repository,
src/pl.ts and src/polylabel.js, together with proofs about the claims of the
specification.

Modelling conventions:
- Coordinates are rationals.  All arithmetic the sources perform on
  coordinates before taking a square root is exact on rationals.
- Values produced through Math.sqrt are real numbers.
- JavaScript Infinity, reachable only as the initial value of a running
  minimum, is modelled with WithTop.
- A thrown JavaScript exception is modelled as Except.error carrying the
  exception kind.
- Indexing a JavaScript number (as src/polylabel.js does in its envelope
  loop) yields undefined, modelled as Option.none; any ordered comparison
  against undefined is false (NaN semantics).
-/

/-- A point: an ordered pair of coordinates. -/
abbrev Pt : Type := ℚ × ℚ

/-- A polygon: a list of rings, each ring a list of points.  Ring 0 is the
outer boundary, later rings are holes. -/
abbrev Pgon : Type := List (List Pt)

namespace JS

/-- Result of indexing a JavaScript number with a property such as 0 or 1:
always undefined (none). -/
def numIndex (_q : ℚ) (_i : ℕ) : Option ℚ := none

/-- JavaScript comparison v < m where v may be undefined: a comparison with
undefined is a comparison with NaN and is false. -/
def undefLt (v : Option ℚ) (m : ℚ) : Bool :=
  match v with
  | none => false
  | some a => decide (a < m)

/-- JavaScript comparison v > m where v may be undefined. -/
def undefGt (v : Option ℚ) (m : ℚ) : Bool :=
  match v with
  | none => false
  | some a => decide (m < a)

/-- One iteration of the envelope loop of polylabel in src/polylabel.js
(lines 112-122).  The loop variable p is a single coordinate (a number),
because the loop iterates over polygon[0][0], the first vertex, rather than
over ring 0.  Hence p[0] and p[1] are undefined and no branch ever fires. -/
def envStep (acc : ℚ × ℚ × ℚ × ℚ) (p : ℚ) : ℚ × ℚ × ℚ × ℚ :=
  let (mnx, mny, mxx, mxy) := acc
  let mnx := if undefLt (numIndex p 0) mnx then (numIndex p 0).getD mnx else mnx
  let mny := if undefLt (numIndex p 1) mny then (numIndex p 1).getD mny else mny
  let mxx := if undefGt (numIndex p 0) mxx then (numIndex p 0).getD mxx else mxx
  let mxy := if undefGt (numIndex p 1) mxy then (numIndex p 1).getD mxy else mxy
  (mnx, mny, mxx, mxy)

/-- The envelope (min_x, min_y, max_x, max_y) computed by polylabel in
src/polylabel.js for a polygon whose first vertex is (x0, y0): all four
accumulators start from the first vertex, and the loop runs over the two
coordinates x0, y0 of that vertex. -/
def envelope (x0 y0 : ℚ) : ℚ × ℚ × ℚ × ℚ :=
  [x0, y0].foldl envStep (x0, y0, x0, y0)

/-- getSegDistSql from src/polylabel.js (lines 1-28).  Note the condition is
dx != 0 AND dy != 0 (axis-parallel segments skip projection), the inner if
repeats the same condition, and the base point is rebound to b before the
clamping branches, so the 0 < t branch offsets from b. -/
def getSegDistSql (px py : ℚ) (a b : Pt) : ℚ :=
  let x := a.1
  let y := a.2
  let dx := b.1 - x
  let dy := b.2 - y
  let (x, y) :=
    if dx ≠ 0 ∧ dy ≠ 0 then
      let t := ((px - x) * dx + (py - y) * dy) / (dx * dx + dy * dy)
      let x := b.1
      let y := b.2
      if 1 < t then (b.1, b.2)
      else if 0 < t then (x + dx * t, y + dy * t)
      else (x, y)
    else (x, y)
  (px - x) * (px - x) + (py - y) * (py - y)

/-- pointToPolygonDistance from src/polylabel.js (lines 30-55).
The statement b = ring[ring.lenght - 1] misspells length, so b is
ring[NaN - 1], i.e. undefined.  Consequences, read off the source:
- no rings: the for loop body never runs and the function falls through,
  returning undefined (none);
- first ring empty: the inner loop never runs, result = sqrt(Infinity) =
  Infinity, inside = false, so the function returns -Infinity;
- first ring non-empty: the first inner iteration evaluates b[1] with b
  undefined and throws a TypeError.
The function returns from inside the loop over rings, so only the first
ring is ever examined. -/
def pointToPolygonDistance (_x _y : ℚ) (polygon : Pgon) : Except String (Option EReal) :=
  match polygon with
  | [] => .ok none
  | ring :: _ =>
    match ring with
    | [] => .ok (some ⊥)
    | _ :: _ => .error "TypeError"

/-- polylabel from src/polylabel.js (lines 105-194).  The envelope loop
iterates over polygon[0][0] (the first vertex), so the envelope equals the
first vertex in all four components, width = height = 0, and the
cell_size === 0 short-circuit is always taken.  The result pairs the point
with the literal false when with_distance is requested.  If control could
reach the search, the first Cell construction would call
pointToPolygonDistance on a polygon with a non-empty first ring, which
throws a TypeError (see pointToPolygonDistance above); with an empty first
ring the very first statement first_item[0] already throws. -/
def polylabel (polygon : Pgon) (_precision : ℚ) (with_distance : Bool) :
    Except String ((ℚ × ℚ) × Option Bool) :=
  match polygon with
  | [] => .error "TypeError"
  | [] :: _ => .error "TypeError"
  | ((x0, y0) :: _) :: _ =>
    let e := envelope x0 y0
    let (min_x, min_y, max_x, max_y) := e
    let width := max_x - min_x
    let height := max_y - min_y
    let cell_size := min width height
    if cell_size = 0 then
      if with_distance then .ok ((min_x, min_y), some false)
      else .ok ((min_x, min_y), none)
    else
      .error "TypeError"

end JS

namespace PL

/-- getSegDistSq from src/pl.ts (lines 11-33): squared distance from p to
the segment [a, b], by projection with parameter t clamped to [0, 1]; a
zero-length segment skips the projection and keeps a. -/
def getSegDistSq (p a b : Pt) : ℚ :=
  let x := a.1
  let y := a.2
  let dx := b.1 - x
  let dy := b.2 - y
  let (x, y) :=
    if dx ≠ 0 ∨ dy ≠ 0 then
      let t := ((p.1 - x) * dx + (p.2 - y) * dy) / (dx * dx + dy * dy)
      if 1 < t then (b.1, b.2)
      else if 0 < t then (x + dx * t, y + dy * t)
      else (x, y)
    else (x, y)
  (p.1 - x) * (p.1 - x) + (p.2 - y) * (p.2 - y)

/-- The edge list of a ring as traversed by the loops of src/pl.ts
(for (i = 0, j = len - 1; i < len; j = i++)): the pairs
(ring[i], ring[j]) with j = len - 1 for i = 0 and j = i - 1 afterwards,
i.e. the ring zipped with (last ring :: dropLast ring). -/
def ringEdges : List Pt → List (Pt × Pt)
  | [] => []
  | v :: vs => (v :: vs).zip (vs.getLastD v :: (v :: vs).dropLast)

/-- The ray-crossing test of pointToPolygonDist in src/pl.ts (lines 46-48):
the edge (a, b) crosses the horizontal ray from p iff exactly one endpoint
has y above p.y and the x-intercept at p.y lies strictly right of p.x. -/
def crosses (p a b : Pt) : Bool :=
  (decide (a.2 > p.2) != decide (b.2 > p.2))
    && decide (p.1 < (b.1 - a.1) * (p.2 - a.2) / (b.2 - a.2) + a.1)

/-- The loop body of pointToPolygonDist in src/pl.ts: toggles the parity
bit on a crossing and takes the minimum with the squared distance to the
edge, in a single pass. -/
def edgeStep (p : Pt) (st : Bool × WithTop ℚ) (e : Pt × Pt) : Bool × WithTop ℚ :=
  ((if crosses p e.1 e.2 then !st.1 else st.1),
   min st.2 ((getSegDistSq p e.1 e.2 : ℚ) : WithTop ℚ))

/-- The state (inside, minDistSq) computed by the nested loops of
pointToPolygonDist in src/pl.ts, starting from (false, Infinity). -/
def distState (p : Pt) (polygon : Pgon) : Bool × WithTop ℚ :=
  polygon.foldl (fun st ring => (ringEdges ring).foldl (edgeStep p) st) (false, ⊤)

/-- All edges of all rings of a polygon, in traversal order. -/
def allEdges (polygon : Pgon) : List (Pt × Pt) :=
  polygon.flatMap ringEdges

/-- Specification-side formulation of the parity bit: the fold of the
crossing toggles over every edge of every ring, by itself. -/
def specInside (p : Pt) (polygon : Pgon) : Bool :=
  (allEdges polygon).foldl (fun ins e => if crosses p e.1 e.2 then !ins else ins) false

/-- Specification-side formulation of the running minimum: the minimum of
the point-to-segment squared distances over every edge of every ring,
independent of the crossing test. -/
def specMinDistSq (p : Pt) (polygon : Pgon) : WithTop ℚ :=
  (allEdges polygon).foldl (fun m e => min m ((getSegDistSq p e.1 e.2 : ℚ) : WithTop ℚ)) ⊤

/-- The envelope accumulator of getGeometry in src/pl.ts: minima start at
Infinity (modelled as the top element), maxima start at 0. -/
structure Geom where
  mnx : WithTop ℚ
  mny : WithTop ℚ
  mxx : ℚ
  mxy : ℚ
  deriving DecidableEq, Repr

/-- The loop body of getGeometry in src/pl.ts: each comparison updates its
own field exactly as the source, (x < acc.min.x) && (acc.min.x = x) and so
on; the four updates read and write disjoint fields, so they are rendered
as one record construction. -/
def geomStep (acc : Geom) (v : Pt) : Geom :=
  ⟨if (v.1 : WithTop ℚ) < acc.mnx then (v.1 : WithTop ℚ) else acc.mnx,
   if (v.2 : WithTop ℚ) < acc.mny then (v.2 : WithTop ℚ) else acc.mny,
   if acc.mxx < v.1 then v.1 else acc.mxx,
   if acc.mxy < v.2 then v.2 else acc.mxy⟩

/-- getGeometry from src/pl.ts (lines 112-130): folds the vertex list into
the envelope accumulator, minima starting at Infinity and maxima at 0. -/
def getGeometry (array : List Pt) : Geom :=
  array.foldl geomStep ⟨⊤, ⊤, 0, 0⟩

/-- The centroid loop body of getCentroidCell in src/pl.ts (lines 96-102):
accumulates (c.x, c.y, area) over an edge (a, b) with cross product
f = ax * by - bx * ay. -/
def centroidStep (st : ℚ × ℚ × ℚ) (e : Pt × Pt) : ℚ × ℚ × ℚ :=
  let f := e.1.1 * e.2.2 - e.2.1 * e.1.2
  (st.1 + (e.1.1 + e.2.1) * f, st.2.1 + (e.1.2 + e.2.2) * f, st.2.2 + f * 3)

/-- The centroid accumulators of getCentroidCell in src/pl.ts: note that
the area accumulator starts at 1, not 0 (let area = 1 on line 92). -/
def centroidAcc (ring : List Pt) : ℚ × ℚ × ℚ :=
  (ringEdges ring).foldl centroidStep (0, 0, 1)

/-- Sum of the cross products f = ax * by - bx * ay over the edges of a
ring (the specification formulation of the area accumulator, without the
initial 1: area = Σ 3 f would start from 0). -/
def crossSum (ring : List Pt) : ℚ :=
  ((ringEdges ring).map fun e => e.1.1 * e.2.2 - e.2.1 * e.1.2).sum

/-- Sum of (ax + bx) * f over the edges of a ring. -/
def weightedSumX (ring : List Pt) : ℚ :=
  ((ringEdges ring).map fun e => (e.1.1 + e.2.1) * (e.1.1 * e.2.2 - e.2.1 * e.1.2)).sum

/-- Sum of (ay + by) * f over the edges of a ring. -/
def weightedSumY (ring : List Pt) : ℚ :=
  ((ringEdges ring).map fun e => (e.1.2 + e.2.2) * (e.1.1 * e.2.2 - e.2.1 * e.1.2)).sum

/-- The x coordinate of the centroid as the specification states it:
Σ((ax + bx) f) divided by the area Σ(3 f). -/
def specCentroidX (ring : List Pt) : ℚ :=
  weightedSumX ring / (3 * crossSum ring)

/-- The y coordinate of the centroid as the specification states it. -/
def specCentroidY (ring : List Pt) : ℚ :=
  weightedSumY ring / (3 * crossSum ring)

/-- The x (or y) values visited by a seeding loop
for (x = start; x < start + size; x += step) of src/pl.ts, for step > 0:
start + k * step for every natural k with k * step < size, that is for
k < ceil (size / step). -/
def gridCoords (start size step : ℚ) : List ℚ :=
  (List.range (Nat.ceil (size / step))).map fun k => start + (k : ℚ) * step

end PL

namespace PL

/-- The module-level fixture array named points in src/pl.ts.  The search
entry point passes it to getCentroidCell as second argument, so it supplies
the degenerate-area fallback centre. -/
def points : List Pt := [
  (261.2, 150.1),
  (256.4, 145.1),
  (239.3, 147.4),
  (229, 150.2),
  (226.8, 154.7),
  (221.1, 152.2),
  (217.4, 155.3),
  (211.7, 155.7),
  (205.2, 154.6),
  (194.5, 152.2),
  (184, 151.2),
  (173.2, 150),
  (169.4, 153.3),
  (160.6, 150),
  (146.9, 144),
  (126.9, 144.2),
  (113.9, 147.1),
  (103.8, 148.1),
  (88.3, 138.8),
  (81.8, 141.5),
  (84.1, 145.8),
  (84.1, 148.9),
  (81, 149.1),
  (77.6, 148.8),
  (76.2, 142.5),
  (63.7, 141.5),
  (51.2, 146.6),
  (27.5, 139.7),
  (9.8, 145.3),
  (5.7, 143.2),
  (3, 138.3),
  (9.8, 134.3),
  (28.8, 131.6),
  (34.6, 131.7),
  (45.8, 131.9),
  (48.6, 133.9),
  (56, 133),
  (74.8, 129.9),
  (96.2, 130),
  (102.6, 130),
  (106.1, 132.4),
  (109.2, 129.6),
  (115, 130.5),
  (123, 125.8),
  (128.4, 126.6),
  (145.2, 126),
  (148.7, 115.9),
  (155.6, 121.7),
  (168.4, 112.6),
  (181.6, 109.6),
  (195.2, 111.9),
  (221.2, 103.5),
  (258.7, 99),
  (278.4, 99.3),
  (295.1, 101.3),
  (308.2, 94.3),
  (329.1, 96.6),
  (344.1, 92.6),
  (364.2, 91.4),
  (379.3, 90.4),
  (395.7, 89.4),
  (397.1, 89.6),
  (403.1, 89.6),
  (414, 91.9),
  (420.3, 96.5),
  (436.3, 99),
  (463.4, 102),
  (483.4, 102.7),
  (483.3, 106.8),
  (489.2, 107.2),
  (495.5, 107.5),
  (496.8, 112.1),
  (500.1, 109.7),
  (507, 110.5),
  (523.8, 107.8),
  (538.1, 109.6),
  (540.3, 106.9),
  (534.8, 104.9),
  (529, 100),
  (528.9, 94.8),
  (537.8, 97.9),
  (554.4, 96.4),
  (578, 98.9),
  (597.4, 101.2),
  (598.8, 95.7),
  (606.1, 98.4),
  (614.4, 95.2),
  (621.9, 91.7),
  (622.6, 89.6),
  (617.9, 88.9),
  (607.1, 90.3),
  (595, 87),
  (590.3, 88),
  (588.3, 86.1),
  (589.8, 83.6),
  (597.3, 83.9),
  (607.6, 83.3),
  (602.1, 82.7),
  (590.8, 78.6),
  (585.7, 80.3),
  (578.1, 76.7),
  (571.1, 79),
  (569.6, 75.9),
  (560.3, 73.4),
  (550.9, 70.9),
  (549.3, 72.9),
  (553.6, 73.9),
  (560.8, 80.7),
  (573.4, 82.1),
  (574.1, 84.5),
  (571.8, 84.3),
  (569.3, 89.9),
  (559.1, 86.6),
  (553.2, 78.1),
  (547.1, 76.8),
  (546.6, 75.1),
  (540, 78.7),
  (539.7, 69.3),
  (547.2, 68.6),
  (547, 64.2),
  (550.1, 61.8),
  (542.1, 61),
  (531.8, 60.5),
  (524.1, 63.6),
  (522.5, 59),
  (526.8, 55.9),
  (532.2, 50.5),
  (531.7, 47.9),
  (526.5, 51.7),
  (517, 50.1),
  (511, 52.6),
  (501.9, 55),
  (497.1, 56.1),
  (488.4, 56),
  (480.4, 60.3),
  (473.6, 61.3),
  (469.8, 57.6),
  (461.4, 59.7),
  (446.3, 61),
  (424.9, 60.3),
  (414.1, 61),
  (404.4, 63),
  (400.1, 60.5),
  (405, 52.9),
  (422, 48.7),
  (433.9, 51.3),
  (442.3, 48.3),
  (455.2, 40.2),
  (463.1, 42.3),
  (473.2, 37),
  (488.4, 37.1),
  (484.5, 41),
  (488.4, 49.7),
  (496, 50.9),
  (497.5, 48.6),
  (489.6, 43.8),
  (497.9, 41.5),
  (501.2, 37.9),
  (506.7, 42.2),
  (515.9, 33.6),
  (537.7, 36.3),
  (550.7, 40.9),
  (552.5, 45.2),
  (549.2, 47.1),
  (549.2, 50),
  (553.7, 48.7),
  (560.7, 47.8),
  (567.1, 44.5),
  (574.2, 48.7),
  (577.5, 47.6),
  (576.8, 44.2),
  (567.2, 45.1),
  (554.6, 40.3),
  (552.6, 34.3),
  (556.6, 34.5),
  (560.1, 29.8),
  (575.9, 30),
  (582.7, 27.6),
  (585.9, 30.2),
  (587.7, 29.6),
  (588.2, 27.5),
  (584.6, 26.5),
  (577.8, 26),
  (580.6, 18.8),
  (569.4, 18.7),
  (555.8, 15.8),
  (549.4, 11.4),
  (551.2, 8),
  (554.9, 4.3),
  (559, 1.1),
  (563.6, 1.7),
  (570.4, 4.3),
  (574.3, 3.2),
  (580.6, 8.3),
  (583.9, 0.2),
  (596.5, -0.2),
  (621.8, 2.6),
  (639.9, 4.4),
  (662.1, 3.6),
  (696.7, 4.3),
  (717.2, 10.1),
  (737.7, 9.5),
  (748.9, 11.3),
  (781, 14.8),
  (814.9, 14),
  (830.6, 17.7),
  (845.2, 20.4),
  (851.5, 24),
  (854.7, 21.6),
  (867.3, 22),
  (887, 25.4),
  (890.5, 26.9),
  (890.5, 27.1),
  (892.6, 26.9),
  (895.9, 32.5),
  (903.8, 32.9),
  (917.3, 30.8),
  (933.2, 34.8),
  (936.2, 32),
  (943.9, 31.1),
  (957.7, 31.7),
  (956, 34.9),
  (950.8, 40.5),
  (970.5, 39.3),
  (989.5, 42),
  (1010.6, 41.5),
  (1034.3, 43.4),
  (1025.4, 50.1),
  (994.9, 55.4),
  (995.3, 57.5),
  (980.5, 58.1),
  (954.6, 57.3),
  (954.8, 63.9),
  (960.1, 63),
  (968.9, 65.2),
  (982.4, 64.4),
  (985.9, 62.7),
  (993.1, 67.6),
  (984.7, 67.9),
  (969.9, 69.8),
  (965.9, 70),
  (965, 72.6),
  (970.9, 73.6),
  (982.2, 75.3),
  (982.7, 79.4),
  (989.9, 81.7),
  (1001.4, 77.1),
  (1013, 79.6),
  (1022.1, 73.5),
  (1024.8, 78.1),
  (1032.7, 78.7),
  (1040.7, 79.7),
  (1030.8, 83.6),
  (1014.9, 90.3),
  (1010, 91.2),
  (999, 95.3),
  (987.3, 95.9),
  (980.3, 100.9),
  (972.6, 110.9),
  (958, 108.6),
  (929.7, 113),
  (908.8, 109.3),
  (897.8, 108.3),
  (894.3, 113.8),
  (907.7, 116),
  (931.5, 116.3),
  (908.3, 126.1),
  (855.6, 134.2),
  (879.9, 136.7),
  (843.2, 138.8),
  (794.6, 140.3),
  (758.9, 139.7),
  (752, 144.2),
  (728.2, 147.6),
  (688.5, 145.5),
  (661.1, 146.7),
  (647.3, 146.6),
  (639.4, 147.5),
  (619.1, 152.7),
  (570.5, 153.2),
  (516.7, 158.1),
  (501, 158.1),
  (499.6, 159.9),
  (510.1, 164.3),
  (529.2, 164.7),
  (529, 167),
  (522.7, 169),
  (530, 171.5),
  (544, 173.6),
  (534.9, 173.5),
  (520.6, 176.8),
  (494.9, 174.2),
  (444.9, 178.5),
  (418.8, 180.5),
  (418.1, 187.1),
  (410.8, 193.6),
  (393.9, 198.5),
  (379.4, 200.5),
  (372.8, 200.8),
  (349.6, 201.2),
  (290.2, 194.6),
  (254.1, 198.8),
  (246.4, 196.2),
  (253.2, 197.5),
  (256.1, 191.1),
  (261.8, 187.1),
  (262.5, 184.5),
  (265.8, 183.3),
  (274.3, 178.6),
  (278.4, 167.2),
  (271.2, 163),
  (271.4, 160),
  (271.9, 151.6),
  (265.1, 149.9)
]

end PL

namespace PL

/-- The signed distance returned by pointToPolygonDist in src/pl.ts:
sqrt of the accumulated minimum squared distance, with sign +1 when the
parity bit says inside and -1 otherwise.  For any polygon with at least one
edge the minimum is finite, so the untop default is never read there (the
source would produce -Infinity on a polygon with no edges). -/
noncomputable def signedDist (p : Pt) (polygon : Pgon) : ℝ :=
  (if (distState p polygon).1 then 1 else -1)
    * Real.sqrt (((distState p polygon).2.untop' 0 : ℚ) : ℝ)

/-- The Cell record of src/pl.ts: centre, half-size h, signed distance d of
the centre, and the bound max.  (In the source, max is set to
Math.max(this.d + h * Math.sqrt(2)); Math.max of a single argument is that
argument.)  The constructor validation (null or NaN centre coordinates or
half-size, empty polygon) cannot fire on rational inputs and the non-empty
polygons every call site passes. -/
structure Cell where
  c : Pt
  h : ℚ
  d : ℝ
  max : ℝ

/-- Construction of a Cell as in src/pl.ts lines 82-86. -/
noncomputable def mkCell (c : Pt) (h : ℚ) (polygon : Pgon) : Cell :=
  ⟨c, h, signedDist c polygon, signedDist c polygon + (h : ℝ) * Real.sqrt 2⟩

/-- getCentroidCell from src/pl.ts (lines 91-110): folds the centroid
accumulators over ring 0 (area starting at 1); when the area accumulator is
zero it falls back to the first entry of its second argument (the fixture
list points at the call site), otherwise it divides by the accumulator. -/
noncomputable def getCentroidCell (polygon : Pgon) (pts : List Pt) : Cell :=
  let st := centroidAcc polygon.headI
  if st.2.2 = 0 then mkCell (pts.headI.1, pts.headI.2) 0 polygon
  else mkCell (st.1 / st.2.2, st.2.1 / st.2.2) 0 polygon

open Classical in
/-- Modelled from the spec: src/pl.ts imports PriorityQueue from
./priority-queue.js, a file that is not part of src/.  Per the
specification the queue is a priority collection of Cells ordered by max
descending under the comparator compareMax (a, b) = a.max < b.max of
src/pl.ts, with max-heap semantics: pop returns a Cell with greatest max,
ties broken arbitrarily (this model keeps the later element among equals).
popMax returns the popped cell together with the remaining queue. -/
noncomputable def popMax : List Cell → Option (Cell × List Cell)
  | [] => none
  | c :: rest =>
    match popMax rest with
    | none => some (c, [])
    | some (m, rest') => if m.max < c.max then some (c, rest) else some (m, c :: rest')

open Classical in
/-- The best-first search loop of polylabel in src/pl.ts (lines 167-188),
with an explicit fuel so the recursion is structural; none means the fuel
ran out before the queue emptied.  Each iteration pops a cell, updates the
best cell on strict improvement, and either discards the cell when
cell.max - bestCell.d <= precision or pushes its four half-size children. -/
noncomputable def searchLoop (precision : ℝ) (polygon : Pgon) :
    ℕ → List Cell → Cell → Option Pt
  | 0, _, _ => none
  | fuel + 1, queue, best =>
    match popMax queue with
    | none => some best.c
    | some (cell, rest) =>
      let best1 := if best.d < cell.d then cell else best
      if cell.max - best1.d ≤ precision then
        searchLoop precision polygon fuel rest best1
      else
        let h := cell.h / 2
        searchLoop precision polygon fuel
          (rest ++ [mkCell (cell.c.1 + h, cell.c.2 - h) h polygon,
                    mkCell (cell.c.1 - h, cell.c.2 - h) h polygon,
                    mkCell (cell.c.1 - h, cell.c.2 + h) h polygon,
                    mkCell (cell.c.1 + h, cell.c.2 + h) h polygon]) best1

/-- The envelope of ring 0 as rational numbers, as polylabel in src/pl.ts
reads it from getGeometry.  On the non-empty rings polylabel feeds it the
minima are finite and the untop default is never read. -/
def envelopeQ (ring : List Pt) : ℚ × ℚ × ℚ × ℚ :=
  ((getGeometry ring).mnx.untop' 0, (getGeometry ring).mny.untop' 0,
   (getGeometry ring).mxx, (getGeometry ring).mxy)

/-- The initial grid of cells polylabel in src/pl.ts pushes onto the queue:
for x from min x by cellSize while below max x, and likewise for y, a cell
centred at (x + h, y + h) with half-size h = cellSize / 2.  (For an empty
polygon the loops are never reached; the value here is irrelevant.) -/
noncomputable def initQueue (polygon : Pgon) : List Cell :=
  match polygon with
  | [] => []
  | ring0 :: _ =>
    let e := envelopeQ ring0
    let cs := min (e.2.2.1 - e.1) (e.2.2.2 - e.2.1)
    let h := cs / 2
    (gridCoords e.1 (e.2.2.1 - e.1) cs).flatMap fun x =>
      (gridCoords e.2.1 (e.2.2.2 - e.2.1) cs).map fun y =>
        mkCell (x + h, y + h) h polygon

open Classical in
/-- The initial best cell of polylabel in src/pl.ts: the centroid cell
(seeded from the fixture list points as second argument), replaced by the
bounding-box-centre cell when that has strictly greater distance. -/
noncomputable def initBest (polygon : Pgon) : Cell :=
  match polygon with
  | [] => mkCell (0, 0) 0 polygon
  | ring0 :: _ =>
    let e := envelopeQ ring0
    let bestCell := getCentroidCell polygon points
    let bboxCell := mkCell (e.1 + (e.2.2.1 - e.1) / 2, e.2.1 + (e.2.2.2 - e.2.1) / 2) 0 polygon
    if bestCell.d < bboxCell.d then bboxCell else bestCell

open Classical in
/-- Running the search loop to completion: the least fuel that empties the
queue, when one exists.  The source loop has no fuel; when no fuel suffices
the source would not return, and the default branch here is unreachable for
positive precision (see the termination theorem below). -/
noncomputable def runSearch (precision : ℝ) (polygon : Pgon)
    (queue : List Cell) (best : Cell) : Pt :=
  if hex : ∃ n, (searchLoop precision polygon n queue best).isSome then
    (searchLoop precision polygon (Nat.find hex) queue best).getD best.c
  else best.c

/-- polylabel from src/pl.ts (lines 132-196).  With no rings,
getGeometry(polygon[0]) receives undefined and throws a TypeError.  With an
empty ring 0 the envelope minima stay Infinity, the grid loops never run,
and the bounding-box-centre cell receives NaN coordinates
(Infinity + (-Infinity) / 2), so the Cell constructor throws its validation
error.  Otherwise, when cellSize is 0 the minimum corner is returned
without any search; else the seeded best-first loop runs to completion. -/
noncomputable def polylabel (polygon : Pgon) (precision : ℝ) : Except String Pt :=
  match polygon with
  | [] => .error "TypeError"
  | ring0 :: _ =>
    match ring0 with
    | [] => .error "not c.x not c.y "
    | _ :: _ =>
      let e := envelopeQ ring0
      let cs := min (e.2.2.1 - e.1) (e.2.2.2 - e.2.1)
      if cs = 0 then .ok (e.1, e.2.1)
      else .ok (runSearch precision polygon (initQueue polygon) (initBest polygon))

/-- The well-formedness invariant of the data model in the specification:
at least one ring, and ring 0 has at least 3 points. -/
def wellFormed (polygon : Pgon) : Prop :=
  polygon ≠ [] ∧ 3 ≤ polygon.headI.length

end PL

namespace PL

lemma mkCell_c (c : Pt) (h : ℚ) (polygon : Pgon) : (mkCell c h polygon).c = c := rfl

lemma mkCell_h (c : Pt) (h : ℚ) (polygon : Pgon) : (mkCell c h polygon).h = h := rfl

lemma mkCell_d (c : Pt) (h : ℚ) (polygon : Pgon) :
    (mkCell c h polygon).d = signedDist c polygon := rfl

lemma mkCell_max (c : Pt) (h : ℚ) (polygon : Pgon) :
    (mkCell c h polygon).max = signedDist c polygon + (h : ℝ) * Real.sqrt 2 := rfl

lemma signedDist_eval {p : Pt} {polygon : Pgon} {b : Bool} {q : ℚ}
    (hst : distState p polygon = (b, (q : WithTop ℚ))) :
    signedDist p polygon = (if b then 1 else -1) * Real.sqrt ((q : ℝ)) := by
  simp only [signedDist, hst, WithTop.untop'_coe]

lemma foldl_edgeStep_split (p : Pt) (l : List (Pt × Pt)) :
    ∀ st : Bool × WithTop ℚ,
      l.foldl (edgeStep p) st
        = (l.foldl (fun ins e => if crosses p e.1 e.2 then !ins else ins) st.1,
           l.foldl (fun m e => min m ((getSegDistSq p e.1 e.2 : ℚ) : WithTop ℚ)) st.2) := by
  induction l with
  | nil => intro st; rfl
  | cons e l ih => intro st; simp only [List.foldl_cons]; rw [ih]; rfl

lemma foldl_rings_eq_flatMap (p : Pt) (polys : Pgon) :
    ∀ st : Bool × WithTop ℚ,
      polys.foldl (fun st ring => (ringEdges ring).foldl (edgeStep p) st) st
        = (polys.flatMap ringEdges).foldl (edgeStep p) st := by
  induction polys with
  | nil => intro st; rfl
  | cons r rs ih =>
    intro st
    simp only [List.foldl_cons, List.flatMap_cons, List.foldl_append]
    exact ih _

lemma distState_eq_spec (p : Pt) (polygon : Pgon) :
    distState p polygon = (specInside p polygon, specMinDistSq p polygon) := by
  rw [distState, foldl_rings_eq_flatMap, foldl_edgeStep_split]
  rfl

end PL

/-- Claim C3 (code bug).  First two parts: in src/pl.ts the loop state of
pointToPolygonDist separates into the joint ray-casting parity over every
edge of every ring and, independently of the toggle outcomes, the minimum
point-to-segment squared distance over every edge of every ring; the
returned value is the square root of that minimum, signed by the parity.
Third part: the distance function of src/polylabel.js cannot do this: on
any polygon with a non-empty first ring (here the triangle
[(1,1),(2,1),(2,2)] queried from the origin) it throws a TypeError, because
its last-vertex lookup misspells length and leaves b undefined. -/
theorem C3_distance_accumulates_over_all_edges :
    (∀ (p : Pt) (polygon : Pgon),
      PL.distState p polygon = (PL.specInside p polygon, PL.specMinDistSq p polygon))
    ∧ (∀ (p : Pt) (polygon : Pgon),
      PL.signedDist p polygon
        = (if PL.specInside p polygon then 1 else -1)
            * Real.sqrt (((PL.specMinDistSq p polygon).untop' 0 : ℚ) : ℝ))
    ∧ JS.pointToPolygonDistance 0 0 [[(1, 1), (2, 1), (2, 2)]] = .error "TypeError" := by
  refine ⟨PL.distState_eq_spec, fun p polygon => ?_, rfl⟩
  simp only [PL.signedDist, PL.distState_eq_spec]

namespace JS

lemma envelope_first_vertex (x0 y0 : ℚ) : envelope x0 y0 = (x0, y0, x0, y0) := rfl

end JS

/-- Claim C2: for every input polygon whose first ring is non-empty,
polylabel in src/polylabel.js computes an envelope equal to the first
vertex of ring 0 in all four components (its loop iterates over the two
coordinates of that vertex and every comparison with the undefined index
results is false), hence width and height are 0, the cell_size == 0
short-circuit is taken before any Cell construction or search, and the
function returns the first vertex, paired with false when with_distance is
set. -/
theorem C2_js_polylabel_always_short_circuits (x0 y0 : ℚ) (r0 : List Pt)
    (rest : Pgon) (precision : ℚ) (wd : Bool) :
    JS.envelope x0 y0 = (x0, y0, x0, y0)
    ∧ min (x0 - x0) (y0 - y0) = 0
    ∧ JS.polylabel (((x0, y0) :: r0) :: rest) precision wd
        = .ok ((x0, y0), if wd then some false else none) := by
  refine ⟨rfl, by simp, ?_⟩
  show (if min (x0 - x0) (y0 - y0) = 0 then _ else _) = _
  rw [if_pos (by simp)]
  cases wd <;> rfl

namespace PL

lemma geomStep_mnx (g : Geom) (v : Pt) : (geomStep g v).mnx = min g.mnx (v.1 : WithTop ℚ) := by
  rw [geomStep, min_comm, min_def_lt]

lemma geomStep_mny (g : Geom) (v : Pt) : (geomStep g v).mny = min g.mny (v.2 : WithTop ℚ) := by
  rw [geomStep, min_comm, min_def_lt]

lemma geomStep_mxx (g : Geom) (v : Pt) : (geomStep g v).mxx = max g.mxx v.1 := by
  rw [geomStep, max_def_lt]

lemma geomStep_mxy (g : Geom) (v : Pt) : (geomStep g v).mxy = max g.mxy v.2 := by
  rw [geomStep, max_def_lt]

lemma foldl_geomStep_mnx (l : List Pt) :
    ∀ g : Geom, (l.foldl geomStep g).mnx = l.foldl (fun m v => min m (v.1 : WithTop ℚ)) g.mnx := by
  induction l with
  | nil => intro g; rfl
  | cons v l ih =>
    intro g
    simp only [List.foldl_cons]
    rw [ih, geomStep_mnx]

lemma foldl_geomStep_mny (l : List Pt) :
    ∀ g : Geom, (l.foldl geomStep g).mny = l.foldl (fun m v => min m (v.2 : WithTop ℚ)) g.mny := by
  induction l with
  | nil => intro g; rfl
  | cons v l ih =>
    intro g
    simp only [List.foldl_cons]
    rw [ih, geomStep_mny]

lemma foldl_geomStep_mxx (l : List Pt) :
    ∀ g : Geom, (l.foldl geomStep g).mxx = l.foldl (fun m v => max m v.1) g.mxx := by
  induction l with
  | nil => intro g; rfl
  | cons v l ih =>
    intro g
    simp only [List.foldl_cons]
    rw [ih, geomStep_mxx]

lemma foldl_geomStep_mxy (l : List Pt) :
    ∀ g : Geom, (l.foldl geomStep g).mxy = l.foldl (fun m v => max m v.2) g.mxy := by
  induction l with
  | nil => intro g; rfl
  | cons v l ih =>
    intro g
    simp only [List.foldl_cons]
    rw [ih, geomStep_mxy]

lemma foldl_min_coe (l : List Pt) :
    ∀ a : ℚ, l.foldl (fun m v => min m (v.1 : WithTop ℚ)) (a : WithTop ℚ)
      = ((l.foldl (fun m v => min m v.1) a : ℚ) : WithTop ℚ) := by
  induction l with
  | nil => intro a; rfl
  | cons v l ih =>
    intro a
    simp only [List.foldl_cons, ← WithTop.coe_min]
    exact ih _

lemma foldl_min_coe_snd (l : List Pt) :
    ∀ a : ℚ, l.foldl (fun m v => min m (v.2 : WithTop ℚ)) (a : WithTop ℚ)
      = ((l.foldl (fun m v => min m v.2) a : ℚ) : WithTop ℚ) := by
  induction l with
  | nil => intro a; rfl
  | cons v l ih =>
    intro a
    simp only [List.foldl_cons, ← WithTop.coe_min]
    exact ih _

lemma getGeometry_mnx (v : Pt) (vs : List Pt) :
    (getGeometry (v :: vs)).mnx = ((vs.foldl (fun m w => min m w.1) v.1 : ℚ) : WithTop ℚ) := by
  rw [getGeometry, foldl_geomStep_mnx, List.foldl_cons]
  show List.foldl _ (min ⊤ (v.1 : WithTop ℚ)) vs = _
  rw [min_eq_right le_top, foldl_min_coe]

lemma getGeometry_mny (v : Pt) (vs : List Pt) :
    (getGeometry (v :: vs)).mny = ((vs.foldl (fun m w => min m w.2) v.2 : ℚ) : WithTop ℚ) := by
  rw [getGeometry, foldl_geomStep_mny, List.foldl_cons]
  show List.foldl _ (min ⊤ (v.2 : WithTop ℚ)) vs = _
  rw [min_eq_right le_top, foldl_min_coe_snd]

lemma foldl_max_pull_fst (l : List Pt) :
    ∀ a b : ℚ, l.foldl (fun m w => max m w.1) (max a b)
      = max a (l.foldl (fun m w => max m w.1) b) := by
  induction l with
  | nil => intro a b; rfl
  | cons w l ih =>
    intro a b
    simp only [List.foldl_cons, max_assoc]
    exact ih a _

lemma foldl_max_pull_snd (l : List Pt) :
    ∀ a b : ℚ, l.foldl (fun m w => max m w.2) (max a b)
      = max a (l.foldl (fun m w => max m w.2) b) := by
  induction l with
  | nil => intro a b; rfl
  | cons w l ih =>
    intro a b
    simp only [List.foldl_cons, max_assoc]
    exact ih a _

lemma getGeometry_mxx (l : List Pt) :
    (getGeometry l).mxx = l.foldl (fun m w => max m w.1) 0 := by
  rw [getGeometry, foldl_geomStep_mxx]

lemma getGeometry_mxy (l : List Pt) :
    (getGeometry l).mxy = l.foldl (fun m w => max m w.2) 0 := by
  rw [getGeometry, foldl_geomStep_mxy]

end PL

/-- Claim C6 (amended): for every non-empty ring, the envelope of
getGeometry in src/pl.ts has min x and min y exactly the minimum
coordinates over the vertices (the fold of min from the first vertex), but
max x and max y are the fold of max started from 0, i.e. the maximum of 0
and the vertex maxima — not the vertex maxima themselves when every
coordinate is negative; and in src/polylabel.js all four envelope
components equal the first vertex of ring 0.  Holes never enter either
envelope. -/
theorem C6_envelope_characterisation (v : Pt) (vs : List Pt) :
    (PL.getGeometry (v :: vs)).mnx = ((vs.foldl (fun m w => min m w.1) v.1 : ℚ) : WithTop ℚ)
    ∧ (PL.getGeometry (v :: vs)).mny = ((vs.foldl (fun m w => min m w.2) v.2 : ℚ) : WithTop ℚ)
    ∧ (PL.getGeometry (v :: vs)).mxx = max 0 (vs.foldl (fun m w => max m w.1) v.1)
    ∧ (PL.getGeometry (v :: vs)).mxy = max 0 (vs.foldl (fun m w => max m w.2) v.2)
    ∧ JS.envelope v.1 v.2 = (v.1, v.2, v.1, v.2) := by
  refine ⟨PL.getGeometry_mnx v vs, PL.getGeometry_mny v vs, ?_, ?_, rfl⟩
  · rw [PL.getGeometry_mxx, List.foldl_cons]
    exact PL.foldl_max_pull_fst vs 0 v.1
  · rw [PL.getGeometry_mxy, List.foldl_cons]
    exact PL.foldl_max_pull_snd vs 0 v.2

/-- Claim C6, counterexample: on the all-negative square ring
[(-10,-10),(-1,-10),(-1,-1),(-10,-1)] the getGeometry envelope of src/pl.ts
has max x = max y = 0, while the maximum coordinates over the vertices are
-1: the claimed equality fails for negative coordinates. -/
theorem C6_envelope_negative_cex :
    PL.getGeometry [(-10, -10), (-1, -10), (-1, -1), (-10, -1)]
      = ⟨some (-10), some (-10), 0, 0⟩
    ∧ (0 : ℚ) ≠ -1 := by
  constructor
  · rfl
  · decide


/-- Claim C1 (code bug): the accuracy guarantee fails for the public entry
point of src/polylabel.js.  On the square [(0,0),(10,0),(10,10),(0,10)]
with precision 1 it returns its first vertex (0,0); by the point-to-polygon
metric (pointToPolygonDist of src/pl.ts) that vertex has signed distance 0,
while the interior point (5,5) has signed distance 5, so the returned
point is more than precision short of the maximum distance-to-boundary. -/
theorem C1_js_entry_point_misses_maximum :
    JS.polylabel [[(0, 0), (10, 0), (10, 10), (0, 10)]] 1 false = .ok ((0, 0), none)
    ∧ PL.signedDist (0, 0) [[(0, 0), (10, 0), (10, 10), (0, 10)]] = 0
    ∧ PL.signedDist (5, 5) [[(0, 0), (10, 0), (10, 10), (0, 10)]] = 5
    ∧ (1 : ℝ) < 5 - 0 := by
  refine ⟨?_, ?_, ?_, by norm_num⟩
  · norm_num [JS.polylabel, JS.envelope, JS.envStep, JS.numIndex, JS.undefLt, JS.undefGt]
  · have hst : PL.distState (0, 0) [[(0, 0), (10, 0), (10, 10), (0, 10)]]
        = (true, ((0 : ℚ) : WithTop ℚ)) := by
      norm_num [PL.distState, PL.ringEdges, PL.edgeStep, PL.crosses, PL.getSegDistSq]
    rw [PL.signedDist_eval hst]
    simp
  · have hst : PL.distState (5, 5) [[(0, 0), (10, 0), (10, 10), (0, 10)]]
        = (true, ((25 : ℚ) : WithTop ℚ)) := by
      norm_num [PL.distState, PL.ringEdges, PL.edgeStep, PL.crosses, PL.getSegDistSq]
    rw [PL.signedDist_eval hst]
    have h25 : ((25 : ℚ) : ℝ) = 5 ^ 2 := by norm_num
    rw [h25, Real.sqrt_sq (by norm_num : (0 : ℝ) ≤ 5)]
    simp

namespace PL

/-- Squared distance between two points. -/
def sqDist (p q : Pt) : ℚ :=
  (p.1 - q.1) * (p.1 - q.1) + (p.2 - q.2) * (p.2 - q.2)

/-- The point of the segment [a, b] at parameter t. -/
def segPointAt (a b : Pt) (t : ℚ) : Pt :=
  (a.1 + (b.1 - a.1) * t, a.2 + (b.2 - a.2) * t)

lemma getSegDistSq_le (p a b : Pt) (t : ℚ) (h0 : 0 ≤ t) (h1 : t ≤ 1) :
    getSegDistSq p a b ≤ sqDist p (segPointAt a b t) := by
  have hRHS : sqDist p (segPointAt a b t)
      = ((p.1 - a.1) - (b.1 - a.1) * t) ^ 2 + ((p.2 - a.2) - (b.2 - a.2) * t) ^ 2 := by
    unfold sqDist segPointAt
    ring
  rw [hRHS]
  unfold getSegDistSq
  dsimp only
  have hDpos : (b.1 - a.1 ≠ 0 ∨ b.2 - a.2 ≠ 0) →
      0 < (b.1 - a.1) * (b.1 - a.1) + (b.2 - a.2) * (b.2 - a.2) := by
    intro hd
    rcases hd with h | h
    · nlinarith [mul_self_nonneg (b.2 - a.2), mul_self_pos.mpr h]
    · nlinarith [mul_self_nonneg (b.1 - a.1), mul_self_pos.mpr h]
  split_ifs with hd ht1 ht0 <;> dsimp only
  · -- non-degenerate, t > 1: the code keeps b
    have hD := hDpos hd
    have hN : (b.1 - a.1) * (b.1 - a.1) + (b.2 - a.2) * (b.2 - a.2)
        < (p.1 - a.1) * (b.1 - a.1) + (p.2 - a.2) * (b.2 - a.2) :=
      (one_lt_div hD).mp ht1
    have hslack : 0 ≤ ((b.1 - a.1) * (b.1 - a.1) + (b.2 - a.2) * (b.2 - a.2)) * (1 - t) :=
      mul_nonneg hD.le (by linarith)
    nlinarith [mul_nonneg (sub_nonneg.mpr h1)
      (by nlinarith : (0 : ℚ) ≤ 2 * ((p.1 - a.1) * (b.1 - a.1) + (p.2 - a.2) * (b.2 - a.2))
        - ((b.1 - a.1) * (b.1 - a.1) + (b.2 - a.2) * (b.2 - a.2)) * (1 + t))]
  · -- non-degenerate, 0 < t <= 1: the code projects to the parameter point
    have hD := hDpos hd
    have hD' : (b.1 - a.1) * (b.1 - a.1) + (b.2 - a.2) * (b.2 - a.2) ≠ 0 := ne_of_gt hD
    have key : (p.1 - (a.1 + (b.1 - a.1)
          * (((p.1 - a.1) * (b.1 - a.1) + (p.2 - a.2) * (b.2 - a.2))
            / ((b.1 - a.1) * (b.1 - a.1) + (b.2 - a.2) * (b.2 - a.2)))))
        * (p.1 - (a.1 + (b.1 - a.1)
          * (((p.1 - a.1) * (b.1 - a.1) + (p.2 - a.2) * (b.2 - a.2))
            / ((b.1 - a.1) * (b.1 - a.1) + (b.2 - a.2) * (b.2 - a.2)))))
        + (p.2 - (a.2 + (b.2 - a.2)
          * (((p.1 - a.1) * (b.1 - a.1) + (p.2 - a.2) * (b.2 - a.2))
            / ((b.1 - a.1) * (b.1 - a.1) + (b.2 - a.2) * (b.2 - a.2)))))
        * (p.2 - (a.2 + (b.2 - a.2)
          * (((p.1 - a.1) * (b.1 - a.1) + (p.2 - a.2) * (b.2 - a.2))
            / ((b.1 - a.1) * (b.1 - a.1) + (b.2 - a.2) * (b.2 - a.2)))))
        = ((p.1 - a.1) - (b.1 - a.1) * t) ^ 2 + ((p.2 - a.2) - (b.2 - a.2) * t) ^ 2
          - (((b.1 - a.1) * (b.1 - a.1) + (b.2 - a.2) * (b.2 - a.2)) * t
              - ((p.1 - a.1) * (b.1 - a.1) + (p.2 - a.2) * (b.2 - a.2))) ^ 2
            / ((b.1 - a.1) * (b.1 - a.1) + (b.2 - a.2) * (b.2 - a.2)) := by
      field_simp
      ring
    rw [key]
    have hq : 0 ≤ (((b.1 - a.1) * (b.1 - a.1) + (b.2 - a.2) * (b.2 - a.2)) * t
        - ((p.1 - a.1) * (b.1 - a.1) + (p.2 - a.2) * (b.2 - a.2))) ^ 2
          / ((b.1 - a.1) * (b.1 - a.1) + (b.2 - a.2) * (b.2 - a.2)) :=
      div_nonneg (sq_nonneg _) hD.le
    linarith
  · -- non-degenerate, t <= 0: the code keeps a
    have hD := hDpos hd
    have hN0 : (p.1 - a.1) * (b.1 - a.1) + (p.2 - a.2) * (b.2 - a.2) ≤ 0 := by
      by_contra h
      push_neg at h
      exact ht0 (div_pos h hD)
    nlinarith [mul_nonneg (mul_nonneg hD.le h0) h0,
      mul_nonneg (neg_nonneg.mpr hN0) h0]
  · -- degenerate zero-length segment: the code keeps a
    push_neg at hd
    obtain ⟨e1, e2⟩ := hd
    rw [e1, e2]
    nlinarith [sq_nonneg (p.1 - a.1), sq_nonneg (p.2 - a.2)]

end PL

/-- Claim C5 (code bug): getSegDistSq of src/pl.ts returns the squared
distance to the closest point of the finite segment: it is a lower bound
on the squared distance to every segment point (clamped-projection
optimality), and it is attained at the clamped parameter.  The
getSegDistSql of src/polylabel.js does not: for P = (5,0) and the
horizontal segment from (0,5) to (10,5) it returns 50 (the squared
distance to the endpoint A, because its projection condition demands both
dx and dy nonzero), while the segment point at parameter 1/2, namely
(5,5), lies at squared distance 25 — which is also what the pl.ts function
returns. -/
theorem C5_seg_distance_clamped_projection :
    (∀ (p a b : Pt) (t : ℚ), 0 ≤ t → t ≤ 1 →
      PL.getSegDistSq p a b ≤ PL.sqDist p (PL.segPointAt a b t))
    ∧ JS.getSegDistSql 5 0 (0, 5) (10, 5) = 50
    ∧ PL.getSegDistSq (5, 0) (0, 5) (10, 5) = 25
    ∧ PL.segPointAt (0, 5) (10, 5) (1 / 2) = (5, 5)
    ∧ PL.sqDist (5, 0) (5, 5) = 25
    ∧ (25 : ℚ) < 50 := by
  refine ⟨PL.getSegDistSq_le, ?_, ?_, ?_, ?_, by norm_num⟩
  · norm_num [JS.getSegDistSql]
  · norm_num [PL.getSegDistSq]
  · norm_num [PL.segPointAt, Prod.ext_iff]
  · norm_num [PL.sqDist]

/-- Witness for claim C5 at a concrete input: the parameter 1/2 is in
[0, 1] and the pl.ts squared segment distance is bounded by the squared
distance to the corresponding segment point. -/
theorem C5_seg_distance_clamped_projection_witness :
    (0 : ℚ) ≤ 1 / 2 ∧ (1 / 2 : ℚ) ≤ 1
    ∧ PL.getSegDistSq (5, 0) (0, 5) (10, 5)
        ≤ PL.sqDist (5, 0) (PL.segPointAt (0, 5) (10, 5) (1 / 2)) :=
  ⟨by norm_num, by norm_num,
    C5_seg_distance_clamped_projection.1 (5, 0) (0, 5) (10, 5) (1 / 2)
      (by norm_num) (by norm_num)⟩

namespace PL

lemma foldl_centroidStep (l : List (Pt × Pt)) :
    ∀ st : ℚ × ℚ × ℚ,
      l.foldl centroidStep st
        = (st.1 + (l.map fun e => (e.1.1 + e.2.1) * (e.1.1 * e.2.2 - e.2.1 * e.1.2)).sum,
           st.2.1 + (l.map fun e => (e.1.2 + e.2.2) * (e.1.1 * e.2.2 - e.2.1 * e.1.2)).sum,
           st.2.2 + 3 * (l.map fun e => e.1.1 * e.2.2 - e.2.1 * e.1.2).sum) := by
  induction l with
  | nil => intro st; simp
  | cons e l ih =>
    intro st
    simp only [List.foldl_cons, List.map_cons, List.sum_cons]
    rw [ih]
    simp only [centroidStep, Prod.mk.injEq]
    refine ⟨by ring, by ring, by ring⟩

end PL

/-- Claim C7 (amended): the centroid seed cell of src/pl.ts is computed
with the centre accumulators starting at 0 but the area accumulator
starting at 1, so its centre is Σ((a+b) cross) / (1 + Σ(3 cross)) over the
edges of ring 0; and the degenerate fallback fires when that shifted
accumulator 1 + Σ(3 cross) is zero, in which case the centre is the first
vertex of the list passed as second argument (the module-level fixture at
the call site), not of the input polygon. -/
theorem C7_centroid_area_accumulator_starts_at_one (polygon : Pgon) (pts : List Pt) :
    PL.getCentroidCell polygon pts
      = if 1 + 3 * PL.crossSum polygon.headI = 0
        then PL.mkCell (pts.headI.1, pts.headI.2) 0 polygon
        else PL.mkCell
          (PL.weightedSumX polygon.headI / (1 + 3 * PL.crossSum polygon.headI),
           PL.weightedSumY polygon.headI / (1 + 3 * PL.crossSum polygon.headI)) 0 polygon := by
  unfold PL.getCentroidCell PL.centroidAcc PL.crossSum PL.weightedSumX PL.weightedSumY
  rw [PL.foldl_centroidStep]
  simp only [zero_add]

/-- Claim C7, counterexample: on the square ring
[(0,0),(10,0),(10,10),(0,10)] the src/pl.ts centroid cell is centred at
(3000/599, 3000/599) — because the area accumulator starts at 1 — while the
formula of the claim (accumulators from zero) gives exactly (5, 5). -/
theorem C7_centroid_shifted_by_initial_one_cex :
    (PL.getCentroidCell [[(0, 0), (10, 0), (10, 10), (0, 10)]] [(0, 0)]).c
      = (3000 / 599, 3000 / 599)
    ∧ PL.specCentroidX [(0, 0), (10, 0), (10, 10), (0, 10)] = 5
    ∧ PL.specCentroidY [(0, 0), (10, 0), (10, 10), (0, 10)] = 5
    ∧ ((3000 / 599 : ℚ) ≠ (5 : ℚ)) := by
  refine ⟨?_, ?_, ?_, by norm_num⟩
  · have hacc : PL.centroidAcc [(0, 0), (10, 0), (10, 10), (0, 10)]
        = (-3000, -3000, -599) := by
      norm_num [PL.centroidAcc, PL.ringEdges, PL.centroidStep]
    unfold PL.getCentroidCell
    rw [show [[(0, 0), (10, 0), (10, 10), (0, 10)]].headI
        = [((0 : ℚ), (0 : ℚ)), (10, 0), (10, 10), (0, 10)] from rfl, hacc]
    norm_num [PL.mkCell_c, Prod.ext_iff]
  · norm_num [PL.specCentroidX, PL.crossSum, PL.weightedSumX, PL.ringEdges]
  · norm_num [PL.specCentroidY, PL.crossSum, PL.weightedSumY, PL.ringEdges]

namespace PL

lemma popMax_eq_none (q : List Cell) : popMax q = none ↔ q = [] := by
  cases q with
  | nil => simp [popMax]
  | cons c rest =>
    simp only [popMax]
    cases h : popMax rest with
    | none => simp
    | some mr =>
      obtain ⟨m, rest'⟩ := mr
      dsimp only
      split_ifs <;> simp

lemma popMax_perm (q : List Cell) : ∀ c rest, popMax q = some (c, rest) → (c :: rest).Perm q := by
  induction q with
  | nil => intro c rest h; simp [popMax] at h
  | cons a q ih =>
    intro c rest h
    unfold popMax at h
    cases hq : popMax q with
    | none =>
      rw [hq] at h
      simp only [Option.some.injEq, Prod.mk.injEq] at h
      obtain ⟨rfl, rfl⟩ := h
      have hq' : q = [] := (popMax_eq_none q).mp hq
      subst hq'
      exact List.Perm.refl _
    | some mr =>
      obtain ⟨m, rest'⟩ := mr
      rw [hq] at h
      dsimp only at h
      by_cases hlt : m.max < a.max
      · rw [if_pos hlt] at h
        simp only [Option.some.injEq, Prod.mk.injEq] at h
        obtain ⟨rfl, rfl⟩ := h
        exact List.Perm.refl _
      · rw [if_neg hlt] at h
        simp only [Option.some.injEq, Prod.mk.injEq] at h
        obtain ⟨rfl, rfl⟩ := h
        exact (List.Perm.swap a m rest').trans ((ih m rest' hq).cons a)

lemma popMax_greatest (q : List Cell) :
    ∀ c rest, popMax q = some (c, rest) → ∀ x ∈ q, x.max ≤ c.max := by
  induction q with
  | nil => intro c rest h; simp [popMax] at h
  | cons a q ih =>
    intro c rest h x hx
    unfold popMax at h
    cases hq : popMax q with
    | none =>
      rw [hq] at h
      simp only [Option.some.injEq, Prod.mk.injEq] at h
      obtain ⟨rfl, -⟩ := h
      have hq' : q = [] := (popMax_eq_none q).mp hq
      subst hq'
      simp only [List.mem_singleton] at hx
      subst hx
      exact le_refl _
    | some mr =>
      obtain ⟨m, rest'⟩ := mr
      rw [hq] at h
      dsimp only at h
      have hall := ih m rest' hq
      by_cases hlt : m.max < a.max
      · rw [if_pos hlt] at h
        simp only [Option.some.injEq, Prod.mk.injEq] at h
        obtain ⟨rfl, -⟩ := h
        rcases List.mem_cons.mp hx with rfl | hx'
        · exact le_refl _
        · exact le_trans (hall x hx') hlt.le
      · rw [if_neg hlt] at h
        simp only [Option.some.injEq, Prod.mk.injEq] at h
        obtain ⟨rfl, -⟩ := h
        rcases List.mem_cons.mp hx with rfl | hx'
        · exact le_of_not_lt hlt
        · exact hall x hx'

end PL

/-- Claim C4: confirmed against the spec-modelled queue.  The search loop
of src/pl.ts removes cells from the pending collection exclusively through
popMax (see searchLoop), and the popped cell has the greatest upperBound
max among all pending cells; ties are broken arbitrarily by the model. -/
theorem C4_popped_cell_has_greatest_upper_bound
    (q : List PL.Cell) (c : PL.Cell) (rest : List PL.Cell)
    (hpop : PL.popMax q = some (c, rest)) :
    ∀ x ∈ q, x.max ≤ c.max :=
  PL.popMax_greatest q c rest hpop

/-- Witness for claim C4 on a concrete two-cell queue with upper bounds 1
and 2: pop returns the cell with bound 2 and every queued cell is below
it. -/
theorem C4_popped_cell_has_greatest_upper_bound_witness :
    PL.popMax [⟨(0, 0), 0, 0, 1⟩, ⟨(1, 1), 0, 0, 2⟩]
      = some (⟨(1, 1), 0, 0, 2⟩, [⟨(0, 0), 0, 0, 1⟩])
    ∧ ∀ x ∈ [(⟨(0, 0), 0, 0, 1⟩ : PL.Cell), ⟨(1, 1), 0, 0, 2⟩],
        x.max ≤ (PL.Cell.mk (1, 1) 0 0 2).max := by
  have hpop : PL.popMax [⟨(0, 0), 0, 0, 1⟩, ⟨(1, 1), 0, 0, 2⟩]
      = some (⟨(1, 1), 0, 0, 2⟩, [⟨(0, 0), 0, 0, 1⟩]) := by
    simp only [PL.popMax]
    norm_num
  exact ⟨hpop,
    C4_popped_cell_has_greatest_upper_bound _ _ _ hpop⟩

namespace PL

/-- The pruning-bound property every cell built by mkCell satisfies:
max is at most d + h * sqrt 2 (it is exactly that). -/
def CellBound (c : Cell) : Prop := c.max ≤ c.d + (c.h : ℝ) * Real.sqrt 2

lemma mkCell_cellBound (c : Pt) (h : ℚ) (polygon : Pgon) : CellBound (mkCell c h polygon) :=
  le_of_eq rfl

open Classical in
/-- The number of subdivision generations a half-size h can still cause
with the given precision: the least n with h * sqrt 2 <= precision * 2^n.
The slack h * sqrt 2 halves at each subdivision level, so children sit one
rank lower. -/
noncomputable def rank (precision : ℝ) (h : ℚ) : ℕ :=
  if hex : ∃ n : ℕ, (h : ℝ) * Real.sqrt 2 ≤ precision * 2 ^ n then Nat.find hex else 0

/-- Size of a complete 4-ary tree of the given height: bounds the number of
pops a cell of that rank can generate. -/
def treeW : ℕ → ℕ
  | 0 => 1
  | r + 1 => 1 + 4 * treeW r

/-- The termination measure of a queue: total tree weight of its cells. -/
noncomputable def qMeasure (precision : ℝ) (q : List Cell) : ℕ :=
  (q.map fun c => treeW (rank precision c.h)).sum

lemma rank_exists (precision : ℝ) (hp : 0 < precision) (h : ℚ) :
    ∃ n : ℕ, (h : ℝ) * Real.sqrt 2 ≤ precision * 2 ^ n := by
  obtain ⟨n, hn⟩ := exists_nat_gt ((h : ℝ) * Real.sqrt 2 / precision)
  refine ⟨n, ?_⟩
  have h2 : (n : ℝ) ≤ 2 ^ n := by
    calc (n : ℝ) ≤ ((2 ^ n : ℕ) : ℝ) := by exact_mod_cast (Nat.lt_two_pow n).le
    _ = 2 ^ n := by push_cast; ring
  have h3 : (n : ℝ) * precision ≤ 2 ^ n * precision := mul_le_mul_of_nonneg_right h2 hp.le
  have h4 := (div_lt_iff₀ hp).mp hn
  rw [mul_comm]
  linarith

lemma rank_spec (precision : ℝ) (hp : 0 < precision) (h : ℚ) :
    (h : ℝ) * Real.sqrt 2 ≤ precision * 2 ^ rank precision h := by
  rw [rank, dif_pos (rank_exists precision hp h)]
  exact Nat.find_spec (rank_exists precision hp h)

lemma rank_pos (precision : ℝ) (hp : 0 < precision) (h : ℚ)
    (hgt : precision < (h : ℝ) * Real.sqrt 2) : 1 ≤ rank precision h := by
  rw [rank, dif_pos (rank_exists precision hp h)]
  refine (Nat.find_pos _).mpr ?_
  simp only [pow_zero, mul_one]
  exact not_le.mpr hgt

lemma rank_half (precision : ℝ) (hp : 0 < precision) (h : ℚ)
    (hr : 1 ≤ rank precision h) : rank precision (h / 2) ≤ rank precision h - 1 := by
  have hex2 := rank_exists precision hp (h / 2)
  rw [rank, dif_pos hex2]
  apply Nat.find_le
  have hs := rank_spec precision hp h
  have hrw : rank precision h = (rank precision h - 1) + 1 := by omega
  rw [hrw, pow_succ] at hs
  push_cast
  nlinarith [hs]

lemma treeW_pos (r : ℕ) : 1 ≤ treeW r := by
  cases r with
  | zero => exact le_refl 1
  | succ n => simp only [treeW]; omega

lemma treeW_mono : Monotone treeW := by
  apply monotone_nat_of_le_succ
  intro n
  simp only [treeW]
  have := treeW_pos n
  omega

lemma searchLoop_succ (precision : ℝ) (polygon : Pgon) (fuel : ℕ)
    (queue : List Cell) (best : Cell) :
    searchLoop precision polygon (fuel + 1) queue best
      = match popMax queue with
        | none => some best.c
        | some (cell, rest) =>
          let best1 := if best.d < cell.d then cell else best
          if cell.max - best1.d ≤ precision then
            searchLoop precision polygon fuel rest best1
          else
            let h := cell.h / 2
            searchLoop precision polygon fuel
              (rest ++ [mkCell (cell.c.1 + h, cell.c.2 - h) h polygon,
                        mkCell (cell.c.1 - h, cell.c.2 - h) h polygon,
                        mkCell (cell.c.1 - h, cell.c.2 + h) h polygon,
                        mkCell (cell.c.1 + h, cell.c.2 + h) h polygon]) best1 := rfl

lemma searchLoop_mono (precision : ℝ) (polygon : Pgon) :
    ∀ (n : ℕ) (queue : List Cell) (best : Cell) (r : Pt),
      searchLoop precision polygon n queue best = some r →
      searchLoop precision polygon (n + 1) queue best = some r := by
  intro n
  induction n with
  | zero => intro queue best r h; simp [searchLoop] at h
  | succ n ih =>
    intro queue best r h
    rw [searchLoop_succ] at h
    rw [searchLoop_succ]
    cases hpop : popMax queue with
    | none =>
      rw [hpop] at h
      dsimp only at h ⊢
      exact h
    | some cr =>
      obtain ⟨cell, rest⟩ := cr
      rw [hpop] at h
      dsimp only at h ⊢
      by_cases hc : cell.max - (if best.d < cell.d then cell else best).d ≤ precision
      · rw [if_pos hc] at h ⊢; exact ih _ _ _ h
      · rw [if_neg hc] at h ⊢; exact ih _ _ _ h

lemma searchLoop_mono_le (precision : ℝ) (polygon : Pgon) (n m : ℕ) (hnm : n ≤ m)
    (queue : List Cell) (best : Cell) (r : Pt)
    (h : searchLoop precision polygon n queue best = some r) :
    searchLoop precision polygon m queue best = some r := by
  induction m with
  | zero =>
    obtain rfl : n = 0 := Nat.le_zero.mp hnm
    exact h
  | succ m ih =>
    rcases Nat.lt_or_ge n (m + 1) with hlt | hge
    · exact searchLoop_mono precision polygon m queue best r (ih (Nat.lt_succ_iff.mp hlt))
    · obtain rfl : n = m + 1 := le_antisymm hnm hge
      exact h

lemma runSearch_eval (precision : ℝ) (polygon : Pgon) (queue : List Cell) (best : Cell)
    (n : ℕ) (r : Pt) (h : searchLoop precision polygon n queue best = some r) :
    runSearch precision polygon queue best = r := by
  have hex : ∃ k, (searchLoop precision polygon k queue best).isSome := ⟨n, by rw [h]; rfl⟩
  rw [runSearch, dif_pos hex]
  have hfind := Nat.find_spec hex
  obtain ⟨r', hr'⟩ := Option.isSome_iff_exists.mp hfind
  have hle : Nat.find hex ≤ n := Nat.find_le (by rw [h]; rfl)
  have hup := searchLoop_mono_le precision polygon (Nat.find hex) n hle queue best r' hr'
  rw [h] at hup
  have hrr : r = r' := by injection hup
  rw [hr', hrr]
  rfl

lemma searchLoop_measure (precision : ℝ) (polygon : Pgon) (hp : 0 < precision) :
    ∀ N : ℕ, ∀ (queue : List Cell) (best : Cell),
      qMeasure precision queue ≤ N → (∀ c ∈ queue, CellBound c) →
      (searchLoop precision polygon (N + 1) queue best).isSome := by
  intro N
  induction N using Nat.strong_induction_on with
  | _ N ih =>
    intro queue best hm hinv
    rw [searchLoop_succ]
    cases hpop : popMax queue with
    | none => simp
    | some cr =>
      obtain ⟨cell, rest⟩ := cr
      dsimp only
      have hperm := popMax_perm queue cell rest hpop
      have hcellmem : cell ∈ queue := hperm.mem_iff.mp (List.mem_cons_self _ _)
      have hrestmem : ∀ c ∈ rest, c ∈ queue := fun c hc =>
        hperm.mem_iff.mp (List.mem_cons_of_mem _ hc)
      have hmeq : qMeasure precision queue
          = treeW (rank precision cell.h) + qMeasure precision rest := by
        have hs := (hperm.map fun c => treeW (rank precision c.h)).sum_eq
        simpa [qMeasure] using hs.symm
      have hW1 : 1 ≤ treeW (rank precision cell.h) := treeW_pos _
      have hbd : cell.d ≤ (if best.d < cell.d then cell else best).d := by
        split_ifs with hlt
        · exact le_refl _
        · exact le_of_not_lt hlt
      by_cases hc : cell.max - (if best.d < cell.d then cell else best).d ≤ precision
      · rw [if_pos hc]
        have hmrest : qMeasure precision rest ≤ N - 1 := by omega
        have hres := ih (N - 1) (by omega) rest (if best.d < cell.d then cell else best)
          hmrest (fun c hc' => hinv c (hrestmem c hc'))
        rw [show N - 1 + 1 = N from by omega] at hres
        exact hres
      · rw [if_neg hc]
        push_neg at hc
        have hbound := hinv cell hcellmem
        have hgt : precision < (cell.h : ℝ) * Real.sqrt 2 := by
          unfold CellBound at hbound
          linarith
        have hr1 : 1 ≤ rank precision cell.h := rank_pos precision hp cell.h hgt
        have hkidle : treeW (rank precision (cell.h / 2)) ≤ treeW (rank precision cell.h - 1) :=
          treeW_mono (rank_half precision hp cell.h hr1)
        have hkids : 4 * treeW (rank precision (cell.h / 2)) + 1 ≤ treeW (rank precision cell.h) := by
          have hstep : treeW ((rank precision cell.h - 1) + 1)
              = 1 + 4 * treeW (rank precision cell.h - 1) := rfl
          have heq : rank precision cell.h - 1 + 1 = rank precision cell.h := by omega
          rw [heq] at hstep
          omega
        have hqk : qMeasure precision
            (rest ++ [mkCell (cell.c.1 + cell.h / 2, cell.c.2 - cell.h / 2) (cell.h / 2) polygon,
                      mkCell (cell.c.1 - cell.h / 2, cell.c.2 - cell.h / 2) (cell.h / 2) polygon,
                      mkCell (cell.c.1 - cell.h / 2, cell.c.2 + cell.h / 2) (cell.h / 2) polygon,
                      mkCell (cell.c.1 + cell.h / 2, cell.c.2 + cell.h / 2) (cell.h / 2) polygon])
            = qMeasure precision rest + 4 * treeW (rank precision (cell.h / 2)) := by
          simp only [qMeasure, List.map_append, List.sum_append, List.map_cons, List.map_nil,
            List.sum_cons, List.sum_nil, mkCell_h]
          ring
        have hmnew : qMeasure precision
            (rest ++ [mkCell (cell.c.1 + cell.h / 2, cell.c.2 - cell.h / 2) (cell.h / 2) polygon,
                      mkCell (cell.c.1 - cell.h / 2, cell.c.2 - cell.h / 2) (cell.h / 2) polygon,
                      mkCell (cell.c.1 - cell.h / 2, cell.c.2 + cell.h / 2) (cell.h / 2) polygon,
                      mkCell (cell.c.1 + cell.h / 2, cell.c.2 + cell.h / 2) (cell.h / 2) polygon])
            ≤ N - 1 := by
          rw [hqk]
          omega
        have hinvnew : ∀ c ∈
            (rest ++ [mkCell (cell.c.1 + cell.h / 2, cell.c.2 - cell.h / 2) (cell.h / 2) polygon,
                      mkCell (cell.c.1 - cell.h / 2, cell.c.2 - cell.h / 2) (cell.h / 2) polygon,
                      mkCell (cell.c.1 - cell.h / 2, cell.c.2 + cell.h / 2) (cell.h / 2) polygon,
                      mkCell (cell.c.1 + cell.h / 2, cell.c.2 + cell.h / 2) (cell.h / 2) polygon]),
            CellBound c := by
          intro c hcmem
          rcases List.mem_append.mp hcmem with hcl | hcr
          · exact hinv c (hrestmem c hcl)
          · simp only [List.mem_cons, List.not_mem_nil, or_false] at hcr
            rcases hcr with rfl | rfl | rfl | rfl <;> exact mkCell_cellBound ..
        have hres := ih (N - 1) (by omega) _ (if best.d < cell.d then cell else best)
          hmnew hinvnew
        rw [show N - 1 + 1 = N from by omega] at hres
        exact hres

end PL

/-- Claim C8: for every well-formed polygon and every positive precision,
the seeded best-first search loop of src/pl.ts terminates: some finite fuel
makes the fuelled loop return (the queue empties).  The proof uses the
measure that assigns each queued cell the size of a complete 4-ary tree of
height rank(h), where the rank of a half-size drops by one at each
subdivision because the pruning slack h * sqrt 2 halves with each level:
after the best cell update the popped cell satisfies
cell.max - best.d <= h * sqrt 2, so once h * sqrt 2 <= precision the cell
is discarded rather than subdivided. -/
theorem C8_search_loop_terminates (polygon : Pgon) (precision : ℝ)
    (_hwf : PL.wellFormed polygon) (hp : 0 < precision) :
    ∃ n, (PL.searchLoop precision polygon n
      (PL.initQueue polygon) (PL.initBest polygon)).isSome := by
  refine ⟨PL.qMeasure precision (PL.initQueue polygon) + 1,
    PL.searchLoop_measure precision polygon hp _ _ (PL.initBest polygon) le_rfl ?_⟩
  intro c hc
  cases polygon with
  | nil => simp [PL.initQueue] at hc
  | cons ring0 rest =>
    simp only [PL.initQueue, List.mem_flatMap, List.mem_map] at hc
    obtain ⟨x, -, y, -, rfl⟩ := hc
    exact PL.mkCell_cellBound ..

/-- Witness for claim C8 at the concrete square polygon with precision 1:
the hypotheses hold and the search loop terminates. -/
theorem C8_search_loop_terminates_witness :
    PL.wellFormed [[(0, 0), (10, 0), (10, 10), (0, 10)]] ∧ (0 : ℝ) < 1
    ∧ ∃ n, (PL.searchLoop 1 [[(0, 0), (10, 0), (10, 10), (0, 10)]] n
        (PL.initQueue [[(0, 0), (10, 0), (10, 10), (0, 10)]])
        (PL.initBest [[(0, 0), (10, 0), (10, 10), (0, 10)]])).isSome :=
  ⟨⟨by simp, by simp⟩, one_pos,
    C8_search_loop_terminates _ _ ⟨by simp, by simp⟩ one_pos⟩

namespace PL

lemma polylabel_search_eq (v : Pt) (vs : List Pt) (rest : Pgon) (precision : ℝ)
    (hcs : min ((envelopeQ (v :: vs)).2.2.1 - (envelopeQ (v :: vs)).1)
               ((envelopeQ (v :: vs)).2.2.2 - (envelopeQ (v :: vs)).2.1) ≠ 0) :
    polylabel ((v :: vs) :: rest) precision
      = .ok (runSearch precision ((v :: vs) :: rest)
          (initQueue ((v :: vs) :: rest)) (initBest ((v :: vs) :: rest))) := by
  unfold polylabel
  dsimp only
  rw [if_neg hcs]

lemma polylabel_shortcircuit_eq (v : Pt) (vs : List Pt) (rest : Pgon) (precision : ℝ)
    (hcs : min ((envelopeQ (v :: vs)).2.2.1 - (envelopeQ (v :: vs)).1)
               ((envelopeQ (v :: vs)).2.2.2 - (envelopeQ (v :: vs)).2.1) = 0) :
    polylabel ((v :: vs) :: rest) precision
      = .ok ((envelopeQ (v :: vs)).1, (envelopeQ (v :: vs)).2.1) := by
  unfold polylabel
  dsimp only
  rw [if_pos hcs]

lemma foldl_min_fst_replicate (x0 y0 : ℚ) (n : ℕ) :
    (List.replicate n (x0, y0)).foldl (fun m w => min m w.1) x0 = x0 := by
  induction n with
  | zero => rfl
  | succ n ih => simpa only [List.replicate_succ, List.foldl_cons, min_self] using ih

lemma foldl_min_snd_replicate (x0 y0 : ℚ) (n : ℕ) :
    (List.replicate n (x0, y0)).foldl (fun m w => min m w.2) y0 = y0 := by
  induction n with
  | zero => rfl
  | succ n ih => simpa only [List.replicate_succ, List.foldl_cons, min_self] using ih

lemma foldl_max_fst_replicate (x0 y0 a : ℚ) (ha : max a x0 = x0) (n : ℕ) :
    (List.replicate n (x0, y0)).foldl (fun m w => max m w.1) a
      = if n = 0 then a else x0 := by
  induction n with
  | zero => rfl
  | succ n ih =>
    simp only [List.replicate_succ, List.foldl_cons, ha, Nat.succ_ne_zero, if_false]
    clear ih
    induction n with
    | zero => rfl
    | succ n ih2 => simpa only [List.replicate_succ, List.foldl_cons, max_self] using ih2

lemma foldl_max_snd_replicate (x0 y0 a : ℚ) (ha : max a y0 = y0) (n : ℕ) :
    (List.replicate n (x0, y0)).foldl (fun m w => max m w.2) a
      = if n = 0 then a else y0 := by
  induction n with
  | zero => rfl
  | succ n ih =>
    simp only [List.replicate_succ, List.foldl_cons, ha, Nat.succ_ne_zero, if_false]
    clear ih
    induction n with
    | zero => rfl
    | succ n ih2 => simpa only [List.replicate_succ, List.foldl_cons, max_self] using ih2

lemma envelopeQ_replicate_nonneg (x0 y0 : ℚ) (n : ℕ) (hx : 0 ≤ x0) (hy : 0 ≤ y0) :
    envelopeQ ((x0, y0) :: List.replicate n (x0, y0)) = (x0, y0, x0, y0) := by
  unfold envelopeQ
  have hmnx := getGeometry_mnx (x0, y0) (List.replicate n (x0, y0))
  have hmny := getGeometry_mny (x0, y0) (List.replicate n (x0, y0))
  have hmxx := getGeometry_mxx ((x0, y0) :: List.replicate n (x0, y0))
  have hmxy := getGeometry_mxy ((x0, y0) :: List.replicate n (x0, y0))
  rw [List.foldl_cons] at hmxx hmxy
  rw [foldl_min_fst_replicate] at hmnx
  rw [foldl_min_snd_replicate] at hmny
  rw [foldl_max_fst_replicate x0 y0 (max 0 x0) (by rw [max_assoc, max_self]; exact max_eq_right hx) n] at hmxx
  rw [foldl_max_snd_replicate x0 y0 (max 0 y0) (by rw [max_assoc, max_self]; exact max_eq_right hy) n] at hmxy
  have hx0 : max 0 x0 = x0 := max_eq_right hx
  have hy0 : max 0 y0 = y0 := max_eq_right hy
  rw [hmnx, hmny, hmxx, hmxy]
  cases n <;> simp [hx0, hy0]

end PL

/-- Claim C10 (amended): for every polygon whose first ring consists
entirely of identical points with nonnegative coordinates, the src/pl.ts
entry point returns that point via the cellSize == 0 short-circuit, without
search and without error; the nonnegativity matters because getGeometry
clamps the envelope maxima at 0, so for a negative repeated point the
bounding box is not degenerate and a genuine search runs (see the
counterexample). -/
theorem C10_degenerate_ring_nonneg_short_circuit (x0 y0 : ℚ) (n : ℕ) (rest : Pgon)
    (precision : ℝ) (hx : 0 ≤ x0) (hy : 0 ≤ y0) :
    PL.polylabel (((x0, y0) :: List.replicate n (x0, y0)) :: rest) precision
      = .ok (x0, y0) := by
  have henv := PL.envelopeQ_replicate_nonneg x0 y0 n hx hy
  rw [PL.polylabel_shortcircuit_eq _ _ _ _ (by rw [henv]; norm_num), henv]

/-- Witness for claim C10 at the repeated point (2, 3) (a three-point
degenerate ring): both coordinates are nonnegative and polylabel returns
the point. -/
theorem C10_degenerate_ring_nonneg_short_circuit_witness :
    (0 : ℚ) ≤ 2 ∧ (0 : ℚ) ≤ 3
    ∧ PL.polylabel [[(2, 3), (2, 3), (2, 3)]] 1 = .ok (2, 3) := by
  refine ⟨by norm_num, by norm_num, ?_⟩
  have h := C10_degenerate_ring_nonneg_short_circuit 2 3 2 [] 1
    (by norm_num) (by norm_num)
  simpa [List.replicate] using h

/-- Claim C10, counterexample: on the degenerate first ring consisting of
the repeated negative point (-1, -1) with precision 1, the src/pl.ts entry
point does not return that point: the envelope maxima are clamped at 0, so
cellSize = 1 and a real search runs, returning (-1/2, -1/2). -/
theorem C10_negative_degenerate_point_cex :
    PL.polylabel [[(-1, -1), (-1, -1), (-1, -1)]] 1 = .ok (-(1/2), -(1/2))
    ∧ ((-(1/2) : ℚ), (-(1/2) : ℚ)) ≠ ((-1 : ℚ), (-1 : ℚ)) := by
  constructor
  case right => norm_num [Prod.ext_iff]
  case left =>
    have henv : PL.envelopeQ [(-1, -1), (-1, -1), (-1, -1)] = (-1, -1, 0, 0) := rfl
    have hq : PL.initQueue [[(-1, -1), (-1, -1), (-1, -1)]]
        = [PL.mkCell (-(1/2), -(1/2)) (1/2) [[(-1, -1), (-1, -1), (-1, -1)]]] := by
      unfold PL.initQueue
      dsimp only
      rw [henv]
      norm_num [PL.gridCoords, show List.range 1 = [0] from rfl, Function.comp]
    have hacc : PL.centroidAcc [(-1, -1), (-1, -1), (-1, -1)] = (0, 0, 1) := by
      norm_num [PL.centroidAcc, PL.ringEdges, PL.centroidStep]
    have hcent : PL.getCentroidCell [[(-1, -1), (-1, -1), (-1, -1)]] PL.points
        = PL.mkCell (0, 0) 0 [[(-1, -1), (-1, -1), (-1, -1)]] := by
      unfold PL.getCentroidCell
      simp only [List.headI]
      rw [hacc]
      norm_num
    have hdist_bb : PL.distState (-(1/2), -(1/2)) [[(-1, -1), (-1, -1), (-1, -1)]]
        = (false, ((1/2 : ℚ) : WithTop ℚ)) := by
      norm_num [PL.distState, PL.ringEdges, PL.edgeStep, PL.crosses, PL.getSegDistSq]
    have hdist_c : PL.distState (0, 0) [[(-1, -1), (-1, -1), (-1, -1)]]
        = (false, ((2 : ℚ) : WithTop ℚ)) := by
      norm_num [PL.distState, PL.ringEdges, PL.edgeStep, PL.crosses, PL.getSegDistSq]
    have hd_bb : PL.signedDist (-(1/2), -(1/2)) [[(-1, -1), (-1, -1), (-1, -1)]]
        = -Real.sqrt (1/2) := by
      rw [PL.signedDist_eval hdist_bb]
      norm_num
    have hd_c : PL.signedDist (0, 0) [[(-1, -1), (-1, -1), (-1, -1)]]
        = -Real.sqrt 2 := by
      rw [PL.signedDist_eval hdist_c]
      norm_num
    have hbest : PL.initBest [[(-1, -1), (-1, -1), (-1, -1)]]
        = PL.mkCell (-(1/2), -(1/2)) 0 [[(-1, -1), (-1, -1), (-1, -1)]] := by
      unfold PL.initBest
      dsimp only
      rw [henv, hcent]
      have hc1 : (-1 : ℚ) + (0 - -1) / 2 = -(1/2) := by norm_num
      rw [hc1]
      have hlt : PL.signedDist (0, 0) [[(-1, -1), (-1, -1), (-1, -1)]]
          < PL.signedDist (-(1/2), -(1/2)) [[(-1, -1), (-1, -1), (-1, -1)]] := by
        rw [hd_c, hd_bb]
        have := Real.sqrt_lt_sqrt (by norm_num : (0 : ℝ) ≤ 1/2) (by norm_num : (1/2 : ℝ) < 2)
        linarith
      rw [if_pos (by simpa only [PL.mkCell_d] using hlt)]
    have hprune : (PL.mkCell (-(1/2), -(1/2)) (1/2) [[(-1, -1), (-1, -1), (-1, -1)]]).max
        - (PL.mkCell (-(1/2), -(1/2)) 0 [[(-1, -1), (-1, -1), (-1, -1)]]).d ≤ 1 := by
      simp only [PL.mkCell_max, PL.mkCell_d]
      have hs2 : ((1/2 : ℚ) : ℝ) * Real.sqrt 2 ≤ 1 := by
        push_cast
        nlinarith [Real.sq_sqrt (show (0 : ℝ) ≤ 2 by norm_num), Real.sqrt_nonneg 2,
          sq_nonneg (Real.sqrt 2 - 2)]
      linarith
    have hni : ¬((PL.mkCell (-(1/2), -(1/2)) 0 [[(-1, -1), (-1, -1), (-1, -1)]]).d
        < (PL.mkCell (-(1/2), -(1/2)) (1/2) [[(-1, -1), (-1, -1), (-1, -1)]]).d) := by
      simp only [PL.mkCell_d]
      exact lt_irrefl _
    have hloop : PL.searchLoop 1 [[(-1, -1), (-1, -1), (-1, -1)]] 2
        [PL.mkCell (-(1/2), -(1/2)) (1/2) [[(-1, -1), (-1, -1), (-1, -1)]]]
        (PL.mkCell (-(1/2), -(1/2)) 0 [[(-1, -1), (-1, -1), (-1, -1)]])
        = some (-(1/2), -(1/2)) := by
      rw [PL.searchLoop_succ]
      have hpop : PL.popMax [PL.mkCell (-(1/2), -(1/2)) (1/2) [[(-1, -1), (-1, -1), (-1, -1)]]]
          = some (PL.mkCell (-(1/2), -(1/2)) (1/2) [[(-1, -1), (-1, -1), (-1, -1)]], []) := rfl
      rw [hpop]
      dsimp only
      rw [if_neg hni, if_pos hprune, PL.searchLoop_succ,
        show PL.popMax ([] : List PL.Cell) = none from rfl]
      dsimp only
      rw [PL.mkCell_c]
    have hcs : min ((PL.envelopeQ [(-1, -1), (-1, -1), (-1, -1)]).2.2.1
          - (PL.envelopeQ [(-1, -1), (-1, -1), (-1, -1)]).1)
        ((PL.envelopeQ [(-1, -1), (-1, -1), (-1, -1)]).2.2.2
          - (PL.envelopeQ [(-1, -1), (-1, -1), (-1, -1)]).2.1) ≠ 0 := by
      rw [henv]
      norm_num
    rw [PL.polylabel_search_eq (-1, -1) [(-1, -1), (-1, -1)] [] 1 hcs]
    rw [PL.runSearch_eval 1 [[(-1, -1), (-1, -1), (-1, -1)]]
      (PL.initQueue [[(-1, -1), (-1, -1), (-1, -1)]])
      (PL.initBest [[(-1, -1), (-1, -1), (-1, -1)]]) 2 (-(1/2), -(1/2))
      (by rw [hq, hbest]; exact hloop)]

namespace PL

/-- Full evaluation of the src/pl.ts entry point on a polygon whose only
ring has just two vertices: no validation fires, the search runs (two grid
cells, both pruned on their first pop) and the centroid-seed point (0, 0)
is returned. -/
lemma polylabel_two_vertex_eval : polylabel [[(0, 0), (4, 2)]] 1 = .ok (0, 0) := by
  have henv : envelopeQ [(0, 0), (4, 2)] = (0, 0, 4, 2) := rfl
  have hq : initQueue [[(0, 0), (4, 2)]]
      = [mkCell (1, 1) 1 [[(0, 0), (4, 2)]], mkCell (3, 1) 1 [[(0, 0), (4, 2)]]] := by
    unfold initQueue
    dsimp only
    rw [henv]
    norm_num [gridCoords, show List.range 2 = [0, 1] from rfl,
      show List.range 1 = [0] from rfl, Function.comp]
  have hacc : centroidAcc [(0, 0), (4, 2)] = (0, 0, 1) := by
    norm_num [centroidAcc, ringEdges, centroidStep]
  have hcent : getCentroidCell [[(0, 0), (4, 2)]] points
      = mkCell (0, 0) 0 [[(0, 0), (4, 2)]] := by
    unfold getCentroidCell
    simp only [List.headI]
    rw [hacc]
    norm_num
  have hdA : distState (1, 1) [[(0, 0), (4, 2)]] = (false, ((1/5 : ℚ) : WithTop ℚ)) := by
    norm_num [distState, ringEdges, edgeStep, crosses, getSegDistSq]
  have hdB : distState (3, 1) [[(0, 0), (4, 2)]] = (false, ((1/5 : ℚ) : WithTop ℚ)) := by
    norm_num [distState, ringEdges, edgeStep, crosses, getSegDistSq]
  have hd0 : distState (0, 0) [[(0, 0), (4, 2)]] = (false, ((0 : ℚ) : WithTop ℚ)) := by
    norm_num [distState, ringEdges, edgeStep, crosses, getSegDistSq]
  have hdm : distState (2, 1) [[(0, 0), (4, 2)]] = (false, ((0 : ℚ) : WithTop ℚ)) := by
    norm_num [distState, ringEdges, edgeStep, crosses, getSegDistSq]
  have sA : signedDist (1, 1) [[(0, 0), (4, 2)]] = -Real.sqrt (1/5) := by
    rw [signedDist_eval hdA]
    norm_num
  have sB : signedDist (3, 1) [[(0, 0), (4, 2)]] = -Real.sqrt (1/5) := by
    rw [signedDist_eval hdB]
    norm_num
  have s0 : signedDist (0, 0) [[(0, 0), (4, 2)]] = 0 := by
    rw [signedDist_eval hd0]
    simp
  have sm : signedDist (2, 1) [[(0, 0), (4, 2)]] = 0 := by
    rw [signedDist_eval hdm]
    simp
  have hbest : initBest [[(0, 0), (4, 2)]] = mkCell (0, 0) 0 [[(0, 0), (4, 2)]] := by
    unfold initBest
    dsimp only
    rw [henv, hcent]
    have hc1 : (0 : ℚ) + (4 - 0) / 2 = 2 := by norm_num
    have hc2 : (0 : ℚ) + (2 - 0) / 2 = 1 := by norm_num
    rw [hc1, hc2]
    have hnlt : ¬(signedDist (0, 0) [[(0, 0), (4, 2)]]
        < signedDist (2, 1) [[(0, 0), (4, 2)]]) := by
      rw [s0, sm]
      exact lt_irrefl 0
    rw [if_neg (by simpa only [mkCell_d] using hnlt)]
  have hsqrt15 : (0 : ℝ) ≤ Real.sqrt (1/5) := Real.sqrt_nonneg _
  have hprB : (mkCell (3, 1) 1 [[(0, 0), (4, 2)]]).max
      - (mkCell (0, 0) 0 [[(0, 0), (4, 2)]]).d ≤ 1 := by
    rw [mkCell_max, mkCell_d, sB, s0]
    push_cast
    nlinarith [Real.sq_sqrt (show (0 : ℝ) ≤ 2 by norm_num),
      Real.sq_sqrt (show (0 : ℝ) ≤ 1/5 by norm_num),
      Real.sqrt_nonneg 2, Real.sqrt_nonneg ((1 : ℝ)/5),
      sq_nonneg (Real.sqrt 2 - Real.sqrt (1/5) - 1),
      sq_nonneg (Real.sqrt 2 + Real.sqrt (1/5) - 1)]
  have hprA : (mkCell (1, 1) 1 [[(0, 0), (4, 2)]]).max
      - (mkCell (0, 0) 0 [[(0, 0), (4, 2)]]).d ≤ 1 := by
    rw [mkCell_max, mkCell_d, sA, s0]
    push_cast
    nlinarith [Real.sq_sqrt (show (0 : ℝ) ≤ 2 by norm_num),
      Real.sq_sqrt (show (0 : ℝ) ≤ 1/5 by norm_num),
      Real.sqrt_nonneg 2, Real.sqrt_nonneg ((1 : ℝ)/5),
      sq_nonneg (Real.sqrt 2 - Real.sqrt (1/5) - 1),
      sq_nonneg (Real.sqrt 2 + Real.sqrt (1/5) - 1)]
  have hnbB : ¬((mkCell (0, 0) 0 [[(0, 0), (4, 2)]]).d
      < (mkCell (3, 1) 1 [[(0, 0), (4, 2)]]).d) := by
    rw [mkCell_d, mkCell_d, s0, sB]
    exact not_lt.mpr (by nlinarith)
  have hnbA : ¬((mkCell (0, 0) 0 [[(0, 0), (4, 2)]]).d
      < (mkCell (1, 1) 1 [[(0, 0), (4, 2)]]).d) := by
    rw [mkCell_d, mkCell_d, s0, sA]
    exact not_lt.mpr (by nlinarith)
  have hABmax : ¬((mkCell (3, 1) 1 [[(0, 0), (4, 2)]]).max
      < (mkCell (1, 1) 1 [[(0, 0), (4, 2)]]).max) := by
    rw [mkCell_max, mkCell_max, sA, sB]
    exact lt_irrefl _
  have hpop2 : popMax [mkCell (1, 1) 1 [[(0, 0), (4, 2)]], mkCell (3, 1) 1 [[(0, 0), (4, 2)]]]
      = some (mkCell (3, 1) 1 [[(0, 0), (4, 2)]], [mkCell (1, 1) 1 [[(0, 0), (4, 2)]]]) := by
    rw [show popMax [mkCell (1, 1) 1 [[(0, 0), (4, 2)]], mkCell (3, 1) 1 [[(0, 0), (4, 2)]]]
        = if (mkCell (3, 1) 1 [[(0, 0), (4, 2)]]).max
            < (mkCell (1, 1) 1 [[(0, 0), (4, 2)]]).max
          then some (mkCell (1, 1) 1 [[(0, 0), (4, 2)]], [mkCell (3, 1) 1 [[(0, 0), (4, 2)]]])
          else some (mkCell (3, 1) 1 [[(0, 0), (4, 2)]], [mkCell (1, 1) 1 [[(0, 0), (4, 2)]]])
      from rfl]
    rw [if_neg hABmax]
  have hpop1 : popMax [mkCell (1, 1) 1 [[(0, 0), (4, 2)]]]
      = some (mkCell (1, 1) 1 [[(0, 0), (4, 2)]], []) := rfl
  have hloop : searchLoop 1 [[(0, 0), (4, 2)]] 3
      [mkCell (1, 1) 1 [[(0, 0), (4, 2)]], mkCell (3, 1) 1 [[(0, 0), (4, 2)]]]
      (mkCell (0, 0) 0 [[(0, 0), (4, 2)]]) = some (0, 0) := by
    rw [searchLoop_succ, hpop2]
    dsimp only
    rw [if_neg hnbB, if_pos hprB]
    rw [searchLoop_succ, hpop1]
    dsimp only
    rw [if_neg hnbA, if_pos hprA]
    rw [searchLoop_succ, show popMax ([] : List Cell) = none from rfl]
    dsimp only
    rw [mkCell_c]
  have hcs : min ((envelopeQ [(0, 0), (4, 2)]).2.2.1 - (envelopeQ [(0, 0), (4, 2)]).1)
      ((envelopeQ [(0, 0), (4, 2)]).2.2.2 - (envelopeQ [(0, 0), (4, 2)]).2.1) ≠ 0 := by
    rw [henv]
    norm_num
  rw [polylabel_search_eq (0, 0) [(4, 2)] [] 1 hcs]
  rw [runSearch_eval 1 [[(0, 0), (4, 2)]]
    (initQueue [[(0, 0), (4, 2)]]) (initBest [[(0, 0), (4, 2)]]) 3 (0, 0)
    (by rw [hq, hbest]; exact hloop)]

end PL

/-- Claim C9 (amended): src/pl.ts performs no eager input validation.  A
call with no rings fails, but with a TypeError thrown inside getGeometry
(reduce on undefined), not the InvalidInput validation error of the Cell
constructor; a call whose ring 0 has only two vertices is not rejected at
all: with precision 1 on the ring [(0,0),(4,2)] the full search runs and
returns the centroid-seed point (0,0); and precision is never validated
before the search. -/
theorem C9_no_eager_input_validation :
    PL.polylabel [] 1 = .error "TypeError"
    ∧ PL.polylabel [[(0, 0), (4, 2)]] 1 = .ok (0, 0) :=
  ⟨rfl, PL.polylabel_two_vertex_eval⟩

/-- Claim C9, counterexample: the call with a 2-vertex ring and precision 1
returns a result (the point (0, 0)) instead of failing with the
InvalidInput error, and in particular it is not an error of any kind. -/
theorem C9_two_vertex_ring_not_rejected_cex :
    PL.polylabel [[(0, 0), (4, 2)]] 1 = .ok (0, 0)
    ∧ (PL.polylabel [[(0, 0), (4, 2)]] 1).isOk = true := by
  refine ⟨PL.polylabel_two_vertex_eval, ?_⟩
  rw [PL.polylabel_two_vertex_eval]
  rfl
